import Mathlib

/-!
Verification of `src/static/web.js` (x32-patch-list).

The file contains two near-duplicate copies of a jQuery UI script.  We give a
shallow embedding of the DOM fragment the script manipulates and of every
event handler the script installs, and prove the specified properties.

The DOM is modelled as a finite list of elements, each identified by its path
from the document root (the list of child indices).  The ancestor relation is
the strict prefix relation on paths.  Each element carries the fields the
script reads or writes: its tag name, its class list, its `checked` property,
its inline `height` style, and its `scrollHeight` (the latter is the value the
rendering engine reports for the element's full content height once the
inline height has been reset to the minimal value `1em`; the engine itself is
outside the program and is treated as an oracle field).

jQuery operations are translated as follows:
* `$(x).closest(sel)` with a tag selector: the longest prefix of the path
  (the element itself included) whose element has that tag; `none` when no
  such ancestor exists, in which case class operations on the empty jQuery
  set are no-ops.
* `$(x).find('.c')`: all strict descendants carrying class `c`, in document
  order.
* `.addClass` adds the class only when absent; `.removeClass` removes every
  occurrence; `.prop('checked', v)` sets the property on every element of the
  collection; `.prop('scrollHeight')` reads the field.
* `.change()` on a collection triggers, for each element in order, the
  handlers bound to it.  The script binds `UpdateRow` to every
  `.togglevisible` element, so triggering `change` on those elements runs
  `UpdateRow`.  (The `MarkersDisjoint` hypothesis used below records the
  structural assumption that no element carries two of the three marker
  classes, so no other handler is bound to the triggered elements; change
  bubbling reaches only ancestors, to which the script binds no handler.)
-/

abbrev DomPath := List Nat

/-- A DOM element: its path from the root and the fields `web.js` touches. -/
structure Elem where
  path : DomPath
  tag : String
  classes : List String
  checked : Bool
  styleHeight : Option String
  scrollHeight : Nat
deriving DecidableEq, Repr

/-- A document: the elements in document order. -/
structure Dom where
  elems : List Elem
deriving DecidableEq, Repr

namespace Dom

/-- The element at a path (the first one, when paths are duplicated). -/
def node? (d : Dom) (p : DomPath) : Option Elem :=
  d.elems.find? (fun e => decide (e.path = p))

/-- `$(p).is(':checked')`. -/
def isChecked (d : Dom) (p : DomPath) : Bool :=
  match d.node? p with
  | some e => e.checked
  | none => false

/-- Whether the element at `p` carries class `c`. -/
def hasClass (d : Dom) (p : DomPath) (c : String) : Bool :=
  match d.node? p with
  | some e => decide (c ∈ e.classes)
  | none => false

/-- Whether the element at `p` matches the tag selector `s`. -/
def matchesTag (d : Dom) (p : DomPath) (s : String) : Bool :=
  match d.node? p with
  | some e => decide (e.tag = s)
  | none => false

/-- `$(p).closest(s)` for a tag selector `s`: the longest prefix of `p`
(including `p` itself) whose element matches the tag. -/
def closest (d : Dom) (p : DomPath) (s : String) : Option DomPath :=
  p.inits.reverse.find? (fun q => d.matchesTag q s)

/-- Apply `f` to the element(s) at path `r`. -/
def updAt (d : Dom) (r : DomPath) (f : Elem → Elem) : Dom :=
  ⟨d.elems.map (fun e => if e.path = r then f e else e)⟩

/-- `$(t).find('.c')`: paths of the strict descendants of `t` that carry
class `c`, in document order. -/
def findWithClass (d : Dom) (t : DomPath) (c : String) : List DomPath :=
  (d.elems.filter (fun e => decide (t <+: e.path ∧ e.path ≠ t ∧ c ∈ e.classes))).map
    (fun e => e.path)

/-- `.prop('checked', c)` applied to the collection of paths `s`. -/
def setCheckedIn (d : Dom) (s : List DomPath) (c : Bool) : Dom :=
  ⟨d.elems.map (fun e => if e.path ∈ s then { e with checked := c } else e)⟩

end Dom

/-- `.addClass(c)` on one element: adds `c` only when it is absent. -/
def addClassFn (c : String) (e : Elem) : Elem :=
  if c ∈ e.classes then e else { e with classes := e.classes ++ [c] }

/-- `.removeClass(c)` on one element: removes every occurrence of `c`. -/
def removeClassFn (c : String) (e : Elem) : Elem :=
  { e with classes := e.classes.filter (fun s => decide (s ≠ c)) }

/-- `$(r).addClass(c)` (no-op on the empty set). -/
def Dom.addClass (d : Dom) (r : DomPath) (c : String) : Dom :=
  d.updAt r (addClassFn c)

/-- `$(r).removeClass(c)` (no-op on the empty set). -/
def Dom.removeClass (d : Dom) (r : DomPath) (c : String) : Dom :=
  d.updAt r (removeClassFn c)

/-- `function UpdateRow() { ... }` invoked with `this` at path `p`:
reads the checkbox state and sets the `ignore` class on the closest `tr`. -/
def UpdateRow (d : Dom) (p : DomPath) : Dom :=
  let checked := d.isChecked p
  if checked then
    match d.closest p "tr" with
    | none => d
    | some r => d.removeClass r "ignore"
  else
    match d.closest p "tr" with
    | none => d
    | some r => d.addClass r "ignore"

/-- The `.togglechildren` change handler of the first copy of the script:
sets `checked` on every `.togglevisible` descendant of the closest table and
then triggers their change event, which runs `UpdateRow` on each. -/
def toggleChildrenA (d : Dom) (p : DomPath) : Dom :=
  let c := d.isChecked p
  match d.closest p "table" with
  | none => d
  | some t =>
    let targets := d.findWithClass t "togglevisible"
    let d1 := d.setCheckedIn targets c
    targets.foldl UpdateRow d1

/-- The `.togglechildren` change handler of the second copy of the script:
sets `checked` on every `.togglevisible` descendant of the closest table,
without triggering their change event. -/
def toggleChildrenB (d : Dom) (p : DomPath) : Dom :=
  let c := d.isChecked p
  match d.closest p "table" with
  | none => d
  | some t => d.setCheckedIn (d.findWithClass t "togglevisible") c

/-- The `.togglesection` change handler (first copy only): sets the `ignore`
class on the closest table according to the checkbox state. -/
def toggleSection (d : Dom) (p : DomPath) : Dom :=
  if d.isChecked p then
    match d.closest p "table" with
    | none => d
    | some t => d.removeClass t "ignore"
  else
    match d.closest p "table" with
    | none => d
    | some t => d.addClass t "ignore"

/-- The textarea `update` closure at path `p`: set the inline height to the
minimal value, read the scroll height, set the inline height to that many
pixels. -/
def textareaUpdate (d : Dom) (p : DomPath) : Dom :=
  let d1 := d.updAt p (fun e => { e with styleHeight := some "1em" })
  let h := match d1.node? p with
    | some e => e.scrollHeight
    | none => 0
  d1.updAt p (fun e => { e with styleHeight := some (toString h ++ "px") })

/-- Paths of the elements selected by `$('.c')`, in document order. -/
def pathsWithClass (d : Dom) (c : String) : List DomPath :=
  (d.elems.filter (fun e => decide (c ∈ e.classes))).map (fun e => e.path)

/-- `$('.togglevisible')`. -/
def togglevisiblePaths (d : Dom) : List DomPath :=
  pathsWithClass d "togglevisible"

/-- `$('.togglesection')`. -/
def togglesectionPaths (d : Dom) : List DomPath :=
  pathsWithClass d "togglesection"

/-- `$('textarea')`. -/
def textareaPaths (d : Dom) : List DomPath :=
  (d.elems.filter (fun e => decide (e.tag = "textarea"))).map (fun e => e.path)

/-- The `$('.togglevisible').each(...)` initialization pass: `UpdateRow` is
run once on every `.togglevisible` element, in document order. -/
def initRows (d : Dom) : Dom :=
  (togglevisiblePaths d).foldl UpdateRow d

/-- The `$('.togglesection').change()` initialization pass (first copy only):
the section handler is run once on every `.togglesection` element. -/
def initSections (d : Dom) : Dom :=
  (togglesectionPaths d).foldl toggleSection d

/-- The `$('textarea').each(... update(); ...)` initialization pass: the
resize closure is run once on every textarea. -/
def initTextareas (d : Dom) : Dom :=
  (textareaPaths d).foldl textareaUpdate d

/-- The whole document-ready body of the first copy of the script, in source
order: row sync for every row checkbox, then the initial section pass, then
the initial textarea pass. -/
def documentReadyA (d : Dom) : Dom :=
  initTextareas (initSections (initRows d))

/-- The whole document-ready body of the second copy of the script (no
section toggles). -/
def documentReadyB (d : Dom) : Dom :=
  initTextareas (initRows d)

/-- Structural assumption on the markup: no element carries two of the three
marker classes.  Under it, triggering `change` on a `.togglevisible` element
runs exactly the bound `UpdateRow` handler. -/
abbrev MarkersDisjoint (d : Dom) : Prop :=
  ∀ e ∈ d.elems, "togglevisible" ∈ e.classes →
    "togglechildren" ∉ e.classes ∧ "togglesection" ∉ e.classes

/-- Every element has its own path: paths identify elements. -/
abbrev PathsNodup (d : Dom) : Prop :=
  (d.elems.map (fun e => e.path)).Nodup

/-- Distinct row checkboxes sit in distinct rows. -/
abbrev RowsDistinct (d : Dom) : Prop :=
  ∀ q ∈ togglevisiblePaths d, ∀ s ∈ togglevisiblePaths d,
    q ≠ s → d.closest q "tr" = d.closest s "tr" → d.closest q "tr" = none

/-- Distinct section toggles sit in distinct tables. -/
abbrev SectionTablesDistinct (d : Dom) : Prop :=
  ∀ q ∈ togglesectionPaths d, ∀ s ∈ togglesectionPaths d,
    q ≠ s → d.closest q "table" = d.closest s "table" → d.closest q "table" = none

/-- Equality of all element fields except the inline height style. -/
def coreEq (x e : Elem) : Prop :=
  x.path = e.path ∧ x.tag = e.tag ∧ x.classes = e.classes ∧ x.checked = e.checked ∧
    x.scrollHeight = e.scrollHeight

/-! ### Concrete example documents (used as witnesses and counterexamples) -/

/-- One row containing two row-visibility checkboxes in conflicting states. -/
def domRowPair : Dom :=
  ⟨[Elem.mk [0] "table" [] false none 0,
    Elem.mk [0, 0] "tr" [] false none 0,
    Elem.mk [0, 0, 0] "input" ["togglevisible"] true none 0,
    Elem.mk [0, 0, 1] "input" ["togglevisible"] false none 0]⟩

/-- One row with a single unchecked row-visibility checkbox. -/
def domSingleRow : Dom :=
  ⟨[Elem.mk [0] "table" [] false none 0,
    Elem.mk [0, 0] "tr" [] false none 0,
    Elem.mk [0, 0, 0] "input" ["togglevisible"] false none 0]⟩

/-- A table with an (unchecked) children-toggle and two rows whose checked
row checkboxes sit in rows without the `ignore` class. -/
def domTable : Dom :=
  ⟨[Elem.mk [0] "table" [] false none 0,
    Elem.mk [0, 0] "input" ["togglechildren"] false none 0,
    Elem.mk [0, 1] "tr" [] false none 0,
    Elem.mk [0, 1, 0] "input" ["togglevisible"] true none 0,
    Elem.mk [0, 2] "tr" [] false none 0,
    Elem.mk [0, 2, 0] "input" ["togglevisible"] true none 0]⟩

/-- A table with a checked children-toggle, one direct row checkbox, a nested
inner table with its own row checkbox, and one checkbox outside the table. -/
def domNested : Dom :=
  ⟨[Elem.mk [0] "table" [] false none 0,
    Elem.mk [0, 0] "input" ["togglechildren"] true none 0,
    Elem.mk [0, 1] "tr" [] false none 0,
    Elem.mk [0, 1, 0] "input" ["togglevisible"] false none 0,
    Elem.mk [0, 1, 1] "table" [] false none 0,
    Elem.mk [0, 1, 1, 0] "tr" [] false none 0,
    Elem.mk [0, 1, 1, 0, 0] "input" ["togglevisible"] false none 0,
    Elem.mk [1] "input" ["togglevisible"] false none 0]⟩

/-- One table containing two section toggles in conflicting states. -/
def domSectionPair : Dom :=
  ⟨[Elem.mk [0] "table" [] false none 0,
    Elem.mk [0, 0] "input" ["togglesection"] true none 0,
    Elem.mk [0, 1] "input" ["togglesection"] false none 0]⟩

/-- One table containing a single unchecked section toggle. -/
def domSection : Dom :=
  ⟨[Elem.mk [0] "table" [] false none 0,
    Elem.mk [0, 0] "input" ["togglesection"] false none 0]⟩

/-- A document with one textarea. -/
def domText : Dom :=
  ⟨[Elem.mk [0] "textarea" [] false (some "30px") 57,
    Elem.mk [1] "tr" [] false none 0]⟩

/-- A row-visibility checkbox with no enclosing `tr`. -/
def domNoRow : Dom :=
  ⟨[Elem.mk [0] "div" [] false none 0,
    Elem.mk [0, 0] "input" ["togglevisible"] true none 0]⟩

/-! ### Basic lemmas about `node?` and the update primitives -/

theorem list_find?_congr {α : Type} (l : List α) (f g : α → Bool)
    (h : ∀ x ∈ l, f x = g x) : l.find? f = l.find? g := by
  induction l with
  | nil => rfl
  | cons a l ih =>
    have ha := h a (List.mem_cons_self a l)
    have ht := ih (fun x hx => h x (List.mem_cons_of_mem a hx))
    simp only [List.find?_cons, ha, ht]

theorem find?_path_map (l : List Elem) (g : Elem → Elem)
    (hg : ∀ e, (g e).path = e.path) (p : DomPath) :
    (l.map g).find? (fun e => decide (e.path = p)) =
      (l.find? (fun e => decide (e.path = p))).map g := by
  induction l with
  | nil => rfl
  | cons a l ih =>
    by_cases ha : a.path = p
    · simp [List.find?_cons, hg a, ha]
    · simp [List.find?_cons, hg a, ha, ih]

namespace Dom

theorem node?_mem {d : Dom} {p : DomPath} {e : Elem} (h : d.node? p = some e) :
    e ∈ d.elems ∧ e.path = p := by
  refine ⟨List.mem_of_find?_eq_some h, ?_⟩
  have := List.find?_some h
  simpa using this

theorem node?_isSome_of_mem {d : Dom} {e : Elem} (he : e ∈ d.elems) :
    ∃ x, d.node? e.path = some x := by
  have : (d.elems.find? (fun x => decide (x.path = e.path))).isSome := by
    rw [List.find?_isSome]
    exact ⟨e, he, by simp⟩
  rcases Option.isSome_iff_exists.mp this with ⟨x, hx⟩
  exact ⟨x, hx⟩

theorem node?_updAt (d : Dom) (r : DomPath) (f : Elem → Elem)
    (hf : ∀ e, (f e).path = e.path) (p : DomPath) :
    (d.updAt r f).node? p = if p = r then (d.node? p).map f else d.node? p := by
  have hg : ∀ e, ((fun e => if e.path = r then f e else e) e).path = e.path := by
    intro e
    by_cases h : e.path = r <;> simp [h, hf e]
  have key : (d.updAt r f).node? p =
      (d.node? p).map (fun e => if e.path = r then f e else e) := by
    show (d.elems.map _).find? _ = _
    exact find?_path_map d.elems _ hg p
  rw [key]
  rcases he : d.node? p with _ | e
  · by_cases h : p = r <;> simp [h]
  · have hep : e.path = p := (node?_mem he).2
    by_cases h : p = r <;> simp [hep, h]

theorem node?_setCheckedIn (d : Dom) (s : List DomPath) (c : Bool) (p : DomPath) :
    (d.setCheckedIn s c).node? p =
      if p ∈ s then (d.node? p).map (fun e => { e with checked := c }) else d.node? p := by
  have hg : ∀ e : Elem,
      ((fun e => if e.path ∈ s then { e with checked := c } else e) e).path = e.path := by
    intro e
    by_cases h : e.path ∈ s <;> simp [h]
  have key : (d.setCheckedIn s c).node? p =
      (d.node? p).map (fun e => if e.path ∈ s then { e with checked := c } else e) := by
    show (d.elems.map _).find? _ = _
    exact find?_path_map d.elems _ hg p
  rw [key]
  rcases he : d.node? p with _ | e
  · by_cases h : p ∈ s <;> simp [h]
  · have hep : e.path = p := (node?_mem he).2
    by_cases h : p ∈ s <;> simp [hep, h]

end Dom

namespace Dom

theorem isChecked_updAt (d : Dom) (r : DomPath) (f : Elem → Elem)
    (hp : ∀ e, (f e).path = e.path) (hc : ∀ e, (f e).checked = e.checked)
    (p : DomPath) : (d.updAt r f).isChecked p = d.isChecked p := by
  unfold isChecked
  rw [node?_updAt d r f hp p]
  by_cases h : p = r
  · rcases he : d.node? p with _ | e
    · simp [h]
    · simp [h, hc e]
  · simp [h]

theorem matchesTag_updAt (d : Dom) (r : DomPath) (f : Elem → Elem)
    (hp : ∀ e, (f e).path = e.path) (ht : ∀ e, (f e).tag = e.tag)
    (p : DomPath) (s : String) : (d.updAt r f).matchesTag p s = d.matchesTag p s := by
  unfold matchesTag
  rw [node?_updAt d r f hp p]
  by_cases h : p = r
  · rcases he : d.node? p with _ | e
    · simp [h]
    · simp [h, ht e]
  · simp [h]

theorem styleHeight_updAt (d : Dom) (r : DomPath) (f : Elem → Elem)
    (hp : ∀ e, (f e).path = e.path) (hs : ∀ e, (f e).styleHeight = e.styleHeight)
    (p : DomPath) : ((d.updAt r f).node? p).map (fun e => e.styleHeight) =
      (d.node? p).map (fun e => e.styleHeight) := by
  rw [node?_updAt d r f hp p]
  by_cases h : p = r
  · rcases he : d.node? p with _ | e
    · simp [h]
    · simp [h, hs e]
  · simp [h]

theorem closest_congr {d1 d2 : Dom} (s : String)
    (h : ∀ q, d1.matchesTag q s = d2.matchesTag q s) (p : DomPath) :
    d1.closest p s = d2.closest p s :=
  list_find?_congr _ _ _ (fun q _ => h q)

theorem closest_updAt (d : Dom) (r : DomPath) (f : Elem → Elem)
    (hp : ∀ e, (f e).path = e.path) (ht : ∀ e, (f e).tag = e.tag)
    (p : DomPath) (s : String) : (d.updAt r f).closest p s = d.closest p s :=
  closest_congr s (fun q => matchesTag_updAt d r f hp ht q s) p

theorem hasClass_updAt_ne (d : Dom) (r : DomPath) (f : Elem → Elem)
    (hp : ∀ e, (f e).path = e.path) {p : DomPath} (h : p ≠ r) (c : String) :
    (d.updAt r f).hasClass p c = d.hasClass p c := by
  unfold hasClass
  rw [node?_updAt d r f hp p, if_neg h]

theorem hasClass_updAt_mem (d : Dom) (r : DomPath) (f : Elem → Elem)
    (hp : ∀ e, (f e).path = e.path)
    {c : String} (hc : ∀ e, c ∈ (f e).classes ↔ c ∈ e.classes) (p : DomPath) :
    (d.updAt r f).hasClass p c = d.hasClass p c := by
  unfold hasClass
  rw [node?_updAt d r f hp p]
  by_cases h : p = r
  · rcases he : d.node? p with _ | e
    · simp [h]
    · simp [h, hc e]
  · simp [h]

theorem isChecked_setCheckedIn_mem (d : Dom) (s : List DomPath) (c : Bool)
    {p : DomPath} (hp : p ∈ s) {e : Elem} (he : d.node? p = some e) :
    (d.setCheckedIn s c).isChecked p = c := by
  unfold isChecked
  rw [node?_setCheckedIn d s c p, if_pos hp, he]
  rfl

theorem isChecked_setCheckedIn_not_mem (d : Dom) (s : List DomPath) (c : Bool)
    {p : DomPath} (hp : p ∉ s) :
    (d.setCheckedIn s c).isChecked p = d.isChecked p := by
  unfold isChecked
  rw [node?_setCheckedIn d s c p, if_neg hp]

theorem matchesTag_setCheckedIn (d : Dom) (s : List DomPath) (c : Bool)
    (p : DomPath) (t : String) :
    (d.setCheckedIn s c).matchesTag p t = d.matchesTag p t := by
  unfold matchesTag
  rw [node?_setCheckedIn d s c p]
  by_cases h : p ∈ s
  · rcases he : d.node? p with _ | e
    · simp [h]
    · simp [h]
  · simp [h]

theorem closest_setCheckedIn (d : Dom) (s : List DomPath) (c : Bool)
    (p : DomPath) (t : String) :
    (d.setCheckedIn s c).closest p t = d.closest p t :=
  closest_congr t (fun q => matchesTag_setCheckedIn d s c q t) p

theorem hasClass_setCheckedIn (d : Dom) (s : List DomPath) (c : Bool)
    (p : DomPath) (cl : String) :
    (d.setCheckedIn s c).hasClass p cl = d.hasClass p cl := by
  unfold hasClass
  rw [node?_setCheckedIn d s c p]
  by_cases h : p ∈ s
  · rcases he : d.node? p with _ | e
    · simp [h]
    · simp [h]
  · simp [h]

theorem closest_matchesTag {d : Dom} {p t : DomPath} {s : String}
    (h : d.closest p s = some t) : d.matchesTag t s = true := by
  unfold closest at h
  have h2 := List.find?_some h
  simpa using h2

theorem matchesTag_node? {d : Dom} {t : DomPath} {s : String}
    (h : d.matchesTag t s = true) : ∃ e, d.node? t = some e ∧ e.tag = s := by
  unfold matchesTag at h
  rcases he : d.node? t with _ | e
  · rw [he] at h
    exact absurd h (by simp)
  · rw [he] at h
    exact ⟨e, rfl, by simpa using h⟩

theorem matchesTag_ne {d : Dom} {q r : DomPath} {s1 s2 : String}
    (h1 : d.matchesTag q s1 = true) (h2 : d.matchesTag r s2 = true)
    (hs : s1 ≠ s2) : q ≠ r := by
  rintro rfl
  rcases matchesTag_node? h1 with ⟨e, he, ht⟩
  rcases matchesTag_node? h2 with ⟨f, hf, hu⟩
  rw [he] at hf
  cases hf
  exact hs (ht ▸ hu ▸ rfl)

end Dom

theorem mem_addClassFn (c s : String) (e : Elem) :
    s ∈ (addClassFn c e).classes ↔ (s ∈ e.classes ∨ s = c) := by
  unfold addClassFn
  by_cases h : c ∈ e.classes
  · rw [if_pos h]
    constructor
    · exact fun hs => Or.inl hs
    · rintro (hs | rfl)
      · exact hs
      · exact h
  · rw [if_neg h]
    simp

theorem mem_removeClassFn (c s : String) (e : Elem) :
    s ∈ (removeClassFn c e).classes ↔ (s ∈ e.classes ∧ s ≠ c) := by
  unfold removeClassFn
  simp

theorem addClassFn_path (c : String) (e : Elem) : (addClassFn c e).path = e.path := by
  unfold addClassFn
  split <;> rfl

theorem addClassFn_tag (c : String) (e : Elem) : (addClassFn c e).tag = e.tag := by
  unfold addClassFn
  split <;> rfl

theorem addClassFn_checked (c : String) (e : Elem) : (addClassFn c e).checked = e.checked := by
  unfold addClassFn
  split <;> rfl

theorem addClassFn_styleHeight (c : String) (e : Elem) :
    (addClassFn c e).styleHeight = e.styleHeight := by
  unfold addClassFn
  split <;> rfl

theorem addClassFn_scrollHeight (c : String) (e : Elem) :
    (addClassFn c e).scrollHeight = e.scrollHeight := by
  unfold addClassFn
  split <;> rfl

theorem removeClassFn_path (c : String) (e : Elem) : (removeClassFn c e).path = e.path := rfl

theorem removeClassFn_tag (c : String) (e : Elem) : (removeClassFn c e).tag = e.tag := rfl

theorem removeClassFn_checked (c : String) (e : Elem) :
    (removeClassFn c e).checked = e.checked := rfl

theorem removeClassFn_styleHeight (c : String) (e : Elem) :
    (removeClassFn c e).styleHeight = e.styleHeight := rfl

theorem removeClassFn_scrollHeight (c : String) (e : Elem) :
    (removeClassFn c e).scrollHeight = e.scrollHeight := rfl

/-! ### Lemmas about `UpdateRow` -/

theorem UpdateRow_eq (d : Dom) (p : DomPath) :
    UpdateRow d p =
      match d.closest p "tr" with
      | none => d
      | some r =>
        if d.isChecked p then d.removeClass r "ignore" else d.addClass r "ignore" := by
  unfold UpdateRow
  cases d.isChecked p <;> cases d.closest p "tr" <;> simp

theorem UpdateRow_of_no_tr {d : Dom} {p : DomPath}
    (h : d.closest p "tr" = none) : UpdateRow d p = d := by
  rw [UpdateRow_eq, h]

theorem UpdateRow_isChecked (d : Dom) (p q : DomPath) :
    (UpdateRow d p).isChecked q = d.isChecked q := by
  rw [UpdateRow_eq]
  rcases d.closest p "tr" with _ | r
  · rfl
  · cases d.isChecked p <;> simp only [if_true, if_false, Bool.false_eq_true]
    · exact Dom.isChecked_updAt d r _ (addClassFn_path "ignore") (addClassFn_checked "ignore") q
    · exact Dom.isChecked_updAt d r _ (removeClassFn_path "ignore") (removeClassFn_checked "ignore") q

theorem UpdateRow_matchesTag (d : Dom) (p q : DomPath) (s : String) :
    (UpdateRow d p).matchesTag q s = d.matchesTag q s := by
  rw [UpdateRow_eq]
  rcases d.closest p "tr" with _ | r
  · rfl
  · cases d.isChecked p <;> simp only [if_true, if_false, Bool.false_eq_true]
    · exact Dom.matchesTag_updAt d r _ (addClassFn_path "ignore") (addClassFn_tag "ignore") q s
    · exact Dom.matchesTag_updAt d r _ (removeClassFn_path "ignore") (removeClassFn_tag "ignore") q s

theorem UpdateRow_closest (d : Dom) (p q : DomPath) (s : String) :
    (UpdateRow d p).closest q s = d.closest q s :=
  Dom.closest_congr s (fun x => UpdateRow_matchesTag d p x s) q

theorem UpdateRow_node?_ne {d : Dom} {p q : DomPath}
    (h : d.closest p "tr" ≠ some q) : (UpdateRow d p).node? q = d.node? q := by
  rw [UpdateRow_eq]
  rcases hr : d.closest p "tr" with _ | r
  · rfl
  · have hq : q ≠ r := fun hqr => h (hr ▸ (hqr ▸ rfl))
    cases d.isChecked p <;> simp only [if_true, if_false, Bool.false_eq_true]
    · rw [Dom.addClass, Dom.node?_updAt d r _ (addClassFn_path "ignore") q, if_neg hq]
    · rw [Dom.removeClass, Dom.node?_updAt d r _ (removeClassFn_path "ignore") q, if_neg hq]

theorem UpdateRow_hasClass_ne_row {d : Dom} {p q : DomPath}
    (h : d.closest p "tr" ≠ some q) (c : String) :
    (UpdateRow d p).hasClass q c = d.hasClass q c := by
  unfold Dom.hasClass
  rw [UpdateRow_node?_ne h]

theorem UpdateRow_hasClass_ne_ignore (d : Dom) (p q : DomPath) {c : String}
    (hc : c ≠ "ignore") : (UpdateRow d p).hasClass q c = d.hasClass q c := by
  rw [UpdateRow_eq]
  rcases d.closest p "tr" with _ | r
  · rfl
  · have hadd : ∀ e, c ∈ (addClassFn "ignore" e).classes ↔ c ∈ e.classes := by
      intro e
      rw [mem_addClassFn]
      constructor
      · rintro (h | rfl)
        · exact h
        · exact absurd rfl hc
      · exact fun h => Or.inl h
    have hrem : ∀ e, c ∈ (removeClassFn "ignore" e).classes ↔ c ∈ e.classes := by
      intro e
      rw [mem_removeClassFn]
      constructor
      · exact fun h => h.1
      · exact fun h => ⟨h, hc⟩
    cases d.isChecked p <;> simp only [if_true, if_false, Bool.false_eq_true]
    · exact Dom.hasClass_updAt_mem d r _ (addClassFn_path "ignore") hadd q
    · exact Dom.hasClass_updAt_mem d r _ (removeClassFn_path "ignore") hrem q

theorem UpdateRow_hasIgnore {d : Dom} {p r : DomPath}
    (h : d.closest p "tr" = some r) :
    (UpdateRow d p).hasClass r "ignore" = ! d.isChecked p := by
  rcases Dom.matchesTag_node? (Dom.closest_matchesTag h) with ⟨e, he, -⟩
  rw [UpdateRow_eq, h]
  cases hc : d.isChecked p <;> simp only [if_true, if_false, Bool.false_eq_true]
  · unfold Dom.hasClass
    rw [Dom.addClass, Dom.node?_updAt d r _ (addClassFn_path "ignore") r, if_pos rfl, he]
    simp [mem_addClassFn]
  · unfold Dom.hasClass
    rw [Dom.removeClass, Dom.node?_updAt d r _ (removeClassFn_path "ignore") r, if_pos rfl, he]
    simp [mem_removeClassFn]

/-! ### Fold lemmas for the row-sync pass -/

theorem foldl_UpdateRow_isChecked (l : List DomPath) (d : Dom) (q : DomPath) :
    (l.foldl UpdateRow d).isChecked q = d.isChecked q := by
  induction l generalizing d with
  | nil => rfl
  | cons a l ih => rw [List.foldl_cons, ih, UpdateRow_isChecked]

theorem foldl_UpdateRow_matchesTag (l : List DomPath) (d : Dom) (q : DomPath) (s : String) :
    (l.foldl UpdateRow d).matchesTag q s = d.matchesTag q s := by
  induction l generalizing d with
  | nil => rfl
  | cons a l ih => rw [List.foldl_cons, ih, UpdateRow_matchesTag]

theorem foldl_UpdateRow_closest (l : List DomPath) (d : Dom) (q : DomPath) (s : String) :
    (l.foldl UpdateRow d).closest q s = d.closest q s := by
  induction l generalizing d with
  | nil => rfl
  | cons a l ih => rw [List.foldl_cons, ih, UpdateRow_closest]

theorem foldl_UpdateRow_hasClass_ne_ignore (l : List DomPath) (d : Dom) (q : DomPath)
    {c : String} (hc : c ≠ "ignore") :
    (l.foldl UpdateRow d).hasClass q c = d.hasClass q c := by
  induction l generalizing d with
  | nil => rfl
  | cons a l ih => rw [List.foldl_cons, ih, UpdateRow_hasClass_ne_ignore _ _ _ hc]

theorem foldl_UpdateRow_keeps (l : List DomPath) (d : Dom) (r : DomPath) (b : Bool)
    (hb : d.hasClass r "ignore" = b)
    (hl : ∀ x ∈ l, d.closest x "tr" = some r → (! d.isChecked x) = b) :
    (l.foldl UpdateRow d).hasClass r "ignore" = b := by
  induction l generalizing d with
  | nil => exact hb
  | cons a l ih =>
    rw [List.foldl_cons]
    refine ih (UpdateRow d a) ?_ ?_
    · by_cases ha : d.closest a "tr" = some r
      · rw [UpdateRow_hasIgnore ha]
        exact hl a (List.mem_cons_self a l) ha
      · rw [UpdateRow_hasClass_ne_row ha]
        exact hb
    · intro x hx hcx
      rw [UpdateRow_closest] at hcx
      rw [UpdateRow_isChecked]
      exact hl x (List.mem_cons_of_mem a hx) hcx

theorem foldl_UpdateRow_post (l : List DomPath) (d : Dom) (p r : DomPath)
    (hp : p ∈ l) (hr : d.closest p "tr" = some r)
    (huniq : ∀ x ∈ l, d.closest x "tr" = some r → d.isChecked x = d.isChecked p) :
    (l.foldl UpdateRow d).hasClass r "ignore" = ! d.isChecked p := by
  rcases List.append_of_mem hp with ⟨u, v, rfl⟩
  rw [List.foldl_append, List.foldl_cons]
  have hck : ∀ x, (u.foldl UpdateRow d).isChecked x = d.isChecked x :=
    fun x => foldl_UpdateRow_isChecked u d x
  have hcl : ∀ x s, (u.foldl UpdateRow d).closest x s = d.closest x s :=
    fun x s => foldl_UpdateRow_closest u d x s
  have hr2 : (u.foldl UpdateRow d).closest p "tr" = some r := by rw [hcl]; exact hr
  have hstep : (UpdateRow (u.foldl UpdateRow d) p).hasClass r "ignore" = ! d.isChecked p := by
    rw [UpdateRow_hasIgnore hr2, hck]
  refine foldl_UpdateRow_keeps v _ r (! d.isChecked p) hstep ?_
  intro x hx hcx
  rw [UpdateRow_closest, hcl] at hcx
  rw [UpdateRow_isChecked, hck]
  have hmem : x ∈ u ++ p :: v := by
    rw [List.mem_append]
    exact Or.inr (List.mem_cons_of_mem p hx)
  rw [huniq x hmem hcx]

theorem pathsWithClass_updAt (d : Dom) (r : DomPath) (f : Elem → Elem)
    (hp : ∀ e, (f e).path = e.path)
    {c : String} (hc : ∀ e, c ∈ (f e).classes ↔ c ∈ e.classes) :
    pathsWithClass (d.updAt r f) c = pathsWithClass d c := by
  unfold pathsWithClass Dom.updAt
  show ((d.elems.map _).filter _).map _ = _
  rw [List.filter_map, List.map_map]
  have h1 : List.filter ((fun e => decide (c ∈ e.classes)) ∘ fun e => if e.path = r then f e else e)
      d.elems = List.filter (fun e => decide (c ∈ e.classes)) d.elems := by
    refine List.filter_congr ?_
    intro e _
    by_cases h : e.path = r <;> simp [h, hc e]
  rw [h1]
  refine List.map_congr_left ?_
  intro e _
  by_cases h : e.path = r <;> simp [Function.comp, h, hp e]

theorem pathsWithTag_updAt (d : Dom) (r : DomPath) (f : Elem → Elem)
    (hp : ∀ e, (f e).path = e.path) (htag : ∀ e, (f e).tag = e.tag) (s : String) :
    ((d.updAt r f).elems.filter (fun e => decide (e.tag = s))).map (fun e => e.path) =
      (d.elems.filter (fun e => decide (e.tag = s))).map (fun e => e.path) := by
  show ((d.elems.map _).filter _).map _ = _
  rw [List.filter_map, List.map_map]
  have h1 : List.filter ((fun e => decide (e.tag = s)) ∘ fun e => if e.path = r then f e else e)
      d.elems = List.filter (fun e => decide (e.tag = s)) d.elems := by
    refine List.filter_congr ?_
    intro e _
    by_cases h : e.path = r <;> simp [h, htag e]
  rw [h1]
  refine List.map_congr_left ?_
  intro e _
  by_cases h : e.path = r <;> simp [Function.comp, h, hp e]

/-! ### Lemmas about `toggleSection` -/

theorem toggleSection_eq (d : Dom) (p : DomPath) :
    toggleSection d p =
      match d.closest p "table" with
      | none => d
      | some t =>
        if d.isChecked p then d.removeClass t "ignore" else d.addClass t "ignore" := by
  unfold toggleSection
  cases d.isChecked p <;> cases d.closest p "table" <;> simp

theorem toggleSection_of_no_table {d : Dom} {p : DomPath}
    (h : d.closest p "table" = none) : toggleSection d p = d := by
  rw [toggleSection_eq, h]

theorem toggleSection_isChecked (d : Dom) (p q : DomPath) :
    (toggleSection d p).isChecked q = d.isChecked q := by
  rw [toggleSection_eq]
  rcases d.closest p "table" with _ | t
  · rfl
  · cases d.isChecked p <;> simp only [if_true, if_false, Bool.false_eq_true]
    · exact Dom.isChecked_updAt d t _ (addClassFn_path "ignore") (addClassFn_checked "ignore") q
    · exact Dom.isChecked_updAt d t _ (removeClassFn_path "ignore") (removeClassFn_checked "ignore") q

theorem toggleSection_matchesTag (d : Dom) (p q : DomPath) (s : String) :
    (toggleSection d p).matchesTag q s = d.matchesTag q s := by
  rw [toggleSection_eq]
  rcases d.closest p "table" with _ | t
  · rfl
  · cases d.isChecked p <;> simp only [if_true, if_false, Bool.false_eq_true]
    · exact Dom.matchesTag_updAt d t _ (addClassFn_path "ignore") (addClassFn_tag "ignore") q s
    · exact Dom.matchesTag_updAt d t _ (removeClassFn_path "ignore") (removeClassFn_tag "ignore") q s

theorem toggleSection_closest (d : Dom) (p q : DomPath) (s : String) :
    (toggleSection d p).closest q s = d.closest q s :=
  Dom.closest_congr s (fun x => toggleSection_matchesTag d p x s) q

theorem toggleSection_node?_ne {d : Dom} {p q : DomPath}
    (h : d.closest p "table" ≠ some q) : (toggleSection d p).node? q = d.node? q := by
  rw [toggleSection_eq]
  rcases hr : d.closest p "table" with _ | t
  · rfl
  · have hq : q ≠ t := fun hqt => h (hr ▸ (hqt ▸ rfl))
    cases d.isChecked p <;> simp only [if_true, if_false, Bool.false_eq_true]
    · rw [Dom.addClass, Dom.node?_updAt d t _ (addClassFn_path "ignore") q, if_neg hq]
    · rw [Dom.removeClass, Dom.node?_updAt d t _ (removeClassFn_path "ignore") q, if_neg hq]

theorem toggleSection_hasClass_ne_table {d : Dom} {p q : DomPath}
    (h : d.closest p "table" ≠ some q) (c : String) :
    (toggleSection d p).hasClass q c = d.hasClass q c := by
  unfold Dom.hasClass
  rw [toggleSection_node?_ne h]

theorem toggleSection_hasIgnore {d : Dom} {p t : DomPath}
    (h : d.closest p "table" = some t) :
    (toggleSection d p).hasClass t "ignore" = ! d.isChecked p := by
  rcases Dom.matchesTag_node? (Dom.closest_matchesTag h) with ⟨e, he, -⟩
  rw [toggleSection_eq, h]
  cases hc : d.isChecked p <;> simp only [if_true, if_false, Bool.false_eq_true]
  · unfold Dom.hasClass
    rw [Dom.addClass, Dom.node?_updAt d t _ (addClassFn_path "ignore") t, if_pos rfl, he]
    simp [mem_addClassFn]
  · unfold Dom.hasClass
    rw [Dom.removeClass, Dom.node?_updAt d t _ (removeClassFn_path "ignore") t, if_pos rfl, he]
    simp [mem_removeClassFn]

theorem toggleSection_hasClass_tr {d : Dom} {p q : DomPath}
    (hq : d.matchesTag q "tr" = true) (c : String) :
    (toggleSection d p).hasClass q c = d.hasClass q c := by
  by_cases h : d.closest p "table" = some q
  · have htab : d.matchesTag q "table" = true := Dom.closest_matchesTag h
    have : q ≠ q := Dom.matchesTag_ne hq htab (by decide)
    exact absurd rfl this
  · exact toggleSection_hasClass_ne_table h c

theorem UpdateRow_hasClass_table {d : Dom} {p q : DomPath}
    (hq : d.matchesTag q "table" = true) (c : String) :
    (UpdateRow d p).hasClass q c = d.hasClass q c := by
  by_cases h : d.closest p "tr" = some q
  · have htr : d.matchesTag q "tr" = true := Dom.closest_matchesTag h
    have : q ≠ q := Dom.matchesTag_ne htr hq (by decide)
    exact absurd rfl this
  · exact UpdateRow_hasClass_ne_row h c

/-! ### Fold lemmas for the section pass -/

theorem foldl_toggleSection_isChecked (l : List DomPath) (d : Dom) (q : DomPath) :
    (l.foldl toggleSection d).isChecked q = d.isChecked q := by
  induction l generalizing d with
  | nil => rfl
  | cons a l ih => rw [List.foldl_cons, ih, toggleSection_isChecked]

theorem foldl_toggleSection_matchesTag (l : List DomPath) (d : Dom) (q : DomPath) (s : String) :
    (l.foldl toggleSection d).matchesTag q s = d.matchesTag q s := by
  induction l generalizing d with
  | nil => rfl
  | cons a l ih => rw [List.foldl_cons, ih, toggleSection_matchesTag]

theorem foldl_toggleSection_closest (l : List DomPath) (d : Dom) (q : DomPath) (s : String) :
    (l.foldl toggleSection d).closest q s = d.closest q s := by
  induction l generalizing d with
  | nil => rfl
  | cons a l ih => rw [List.foldl_cons, ih, toggleSection_closest]

theorem foldl_toggleSection_hasClass_tr (l : List DomPath) (d : Dom) {q : DomPath}
    (hq : d.matchesTag q "tr" = true) (c : String) :
    (l.foldl toggleSection d).hasClass q c = d.hasClass q c := by
  induction l generalizing d with
  | nil => rfl
  | cons a l ih =>
    rw [List.foldl_cons, ih, toggleSection_hasClass_tr hq]
    rw [toggleSection_matchesTag]
    exact hq

theorem foldl_toggleSection_keeps (l : List DomPath) (d : Dom) (t : DomPath) (b : Bool)
    (hb : d.hasClass t "ignore" = b)
    (hl : ∀ x ∈ l, d.closest x "table" = some t → (! d.isChecked x) = b) :
    (l.foldl toggleSection d).hasClass t "ignore" = b := by
  induction l generalizing d with
  | nil => exact hb
  | cons a l ih =>
    rw [List.foldl_cons]
    refine ih (toggleSection d a) ?_ ?_
    · by_cases ha : d.closest a "table" = some t
      · rw [toggleSection_hasIgnore ha]
        exact hl a (List.mem_cons_self a l) ha
      · rw [toggleSection_hasClass_ne_table ha]
        exact hb
    · intro x hx hcx
      rw [toggleSection_closest] at hcx
      rw [toggleSection_isChecked]
      exact hl x (List.mem_cons_of_mem a hx) hcx

theorem foldl_toggleSection_post (l : List DomPath) (d : Dom) (p t : DomPath)
    (hp : p ∈ l) (ht : d.closest p "table" = some t)
    (huniq : ∀ x ∈ l, d.closest x "table" = some t → d.isChecked x = d.isChecked p) :
    (l.foldl toggleSection d).hasClass t "ignore" = ! d.isChecked p := by
  rcases List.append_of_mem hp with ⟨u, v, rfl⟩
  rw [List.foldl_append, List.foldl_cons]
  have hck : ∀ x, (u.foldl toggleSection d).isChecked x = d.isChecked x :=
    fun x => foldl_toggleSection_isChecked u d x
  have hcl : ∀ x s, (u.foldl toggleSection d).closest x s = d.closest x s :=
    fun x s => foldl_toggleSection_closest u d x s
  have ht2 : (u.foldl toggleSection d).closest p "table" = some t := by rw [hcl]; exact ht
  have hstep : (toggleSection (u.foldl toggleSection d) p).hasClass t "ignore" =
      ! d.isChecked p := by
    rw [toggleSection_hasIgnore ht2, hck]
  refine foldl_toggleSection_keeps v _ t (! d.isChecked p) hstep ?_
  intro x hx hcx
  rw [toggleSection_closest, hcl] at hcx
  rw [toggleSection_isChecked, hck]
  have hmem : x ∈ u ++ p :: v := by
    rw [List.mem_append]
    exact Or.inr (List.mem_cons_of_mem p hx)
  rw [huniq x hmem hcx]

/-! ### Lemmas about the textarea resize closure -/

theorem textareaUpdate_def (d : Dom) (p : DomPath) :
    textareaUpdate d p =
      (d.updAt p (fun e => { e with styleHeight := some "1em" })).updAt p
        (fun e => { e with styleHeight := some (toString
          (match (d.updAt p (fun e => { e with styleHeight := some "1em" })).node? p with
            | some e => e.scrollHeight
            | none => 0) ++ "px") }) := rfl

theorem node?_updAt_updAt (d : Dom) (r : DomPath) (f g : Elem → Elem)
    (hf : ∀ e, (f e).path = e.path) (hg : ∀ e, (g e).path = e.path) (q : DomPath) :
    ((d.updAt r f).updAt r g).node? q =
      if q = r then (d.node? q).map (fun e => g (f e)) else d.node? q := by
  rw [Dom.node?_updAt _ r g hg q, Dom.node?_updAt d r f hf q]
  by_cases h : q = r
  · rw [if_pos h, if_pos h, if_pos h, Option.map_map]
    rfl
  · rw [if_neg h, if_neg h, if_neg h]

theorem textareaUpdate_node? (d : Dom) (p q : DomPath) :
    (textareaUpdate d p).node? q =
      if q = p then
        (d.node? p).map (fun e => { e with styleHeight := some (toString e.scrollHeight ++ "px") })
      else d.node? q := by
  have key := node?_updAt_updAt d p
    (fun e => { e with styleHeight := some "1em" })
    (fun e => { e with styleHeight := some (toString
      (match (d.updAt p (fun e => { e with styleHeight := some "1em" })).node? p with
        | some e => e.scrollHeight
        | none => 0) ++ "px") })
    (fun e => rfl) (fun e => rfl) q
  rw [textareaUpdate_def, key]
  by_cases h : q = p
  · rw [if_pos h, if_pos h, h]
    rcases he : d.node? p with _ | e
    · rfl
    · have hm : (d.updAt p (fun e => { e with styleHeight := some "1em" })).node? p =
          some { e with styleHeight := some "1em" } := by
        rw [Dom.node?_updAt, if_pos rfl, he]
        · rfl
        · exact fun x => rfl
      rw [Option.map_some', Option.map_some', hm]
  · rw [if_neg h, if_neg h]

theorem textareaUpdate_node?_ne {d : Dom} {a q : DomPath} (h : q ≠ a) :
    (textareaUpdate d a).node? q = d.node? q := by
  rw [textareaUpdate_node?, if_neg h]

theorem textareaUpdate_post {d : Dom} {p : DomPath} {e : Elem} (he : d.node? p = some e) :
    (textareaUpdate d p).node? p =
      some { e with styleHeight := some (toString e.scrollHeight ++ "px") } := by
  rw [textareaUpdate_node?, if_pos rfl, he]
  rfl

theorem coreEq_refl (e : Elem) : coreEq e e :=
  ⟨rfl, rfl, rfl, rfl, rfl⟩

theorem coreEq_styleHeight {x e : Elem} (h : coreEq x e) (v : Option String) :
    { x with styleHeight := v } = { e with styleHeight := v } := by
  cases x
  cases e
  obtain ⟨h1, h2, h3, h4, h5⟩ := h
  simp_all

theorem textareaUpdate_post_core {d : Dom} {p : DomPath} {x e : Elem}
    (he : d.node? p = some x) (hc : coreEq x e) :
    (textareaUpdate d p).node? p =
      some { e with styleHeight := some (toString e.scrollHeight ++ "px") } := by
  rw [textareaUpdate_post he, coreEq_styleHeight hc, hc.2.2.2.2]

theorem textareaUpdate_core (d : Dom) (a : DomPath) {p : DomPath} {e : Elem}
    (he : d.node? p = some e) :
    ∃ x, (textareaUpdate d a).node? p = some x ∧ coreEq x e := by
  by_cases h : p = a
  · subst h
    refine ⟨{ e with styleHeight := some (toString e.scrollHeight ++ "px") },
      textareaUpdate_post he, ?_⟩
    exact ⟨rfl, rfl, rfl, rfl, rfl⟩
  · exact ⟨e, by rw [textareaUpdate_node?_ne h, he], coreEq_refl e⟩

theorem foldl_textareaUpdate_core (l : List DomPath) (d : Dom) {p : DomPath} {e : Elem}
    (he : d.node? p = some e) :
    ∃ x, (l.foldl textareaUpdate d).node? p = some x ∧ coreEq x e := by
  induction l generalizing d e with
  | nil => exact ⟨e, he, coreEq_refl e⟩
  | cons a l ih =>
    rw [List.foldl_cons]
    rcases textareaUpdate_core d a he with ⟨x, hx, hcx⟩
    rcases ih _ hx with ⟨y, hy, hcy⟩
    exact ⟨y, hy, ⟨hcy.1.trans hcx.1, hcy.2.1.trans hcx.2.1, hcy.2.2.1.trans hcx.2.2.1,
      hcy.2.2.2.1.trans hcx.2.2.2.1, hcy.2.2.2.2.trans hcx.2.2.2.2⟩⟩

theorem foldl_textareaUpdate_keeps (l : List DomPath) (d : Dom) {p : DomPath} {e : Elem}
    (hb : d.node? p = some { e with styleHeight := some (toString e.scrollHeight ++ "px") }) :
    (l.foldl textareaUpdate d).node? p =
      some { e with styleHeight := some (toString e.scrollHeight ++ "px") } := by
  induction l generalizing d with
  | nil => exact hb
  | cons a l ih =>
    rw [List.foldl_cons]
    refine ih _ ?_
    by_cases h : p = a
    · subst h
      rw [textareaUpdate_post hb]
    · rw [textareaUpdate_node?_ne h, hb]

theorem foldl_textareaUpdate_post (l : List DomPath) (d : Dom) {p : DomPath} {e : Elem}
    (hp : p ∈ l) (he : d.node? p = some e) :
    (l.foldl textareaUpdate d).node? p =
      some { e with styleHeight := some (toString e.scrollHeight ++ "px") } := by
  rcases List.append_of_mem hp with ⟨u, v, rfl⟩
  rw [List.foldl_append, List.foldl_cons]
  rcases foldl_textareaUpdate_core u d he with ⟨x, hx, hcx⟩
  exact foldl_textareaUpdate_keeps v _ (textareaUpdate_post_core hx hcx)

theorem textareaUpdate_isChecked (d : Dom) (a q : DomPath) :
    (textareaUpdate d a).isChecked q = d.isChecked q := by
  unfold Dom.isChecked
  rw [textareaUpdate_node?]
  by_cases h : q = a
  · rw [if_pos h, h]
    rcases d.node? a with _ | e <;> rfl
  · rw [if_neg h]

theorem textareaUpdate_matchesTag (d : Dom) (a q : DomPath) (s : String) :
    (textareaUpdate d a).matchesTag q s = d.matchesTag q s := by
  unfold Dom.matchesTag
  rw [textareaUpdate_node?]
  by_cases h : q = a
  · rw [if_pos h, h]
    rcases d.node? a with _ | e <;> rfl
  · rw [if_neg h]

theorem textareaUpdate_closest (d : Dom) (a q : DomPath) (s : String) :
    (textareaUpdate d a).closest q s = d.closest q s :=
  Dom.closest_congr s (fun x => textareaUpdate_matchesTag d a x s) q

theorem textareaUpdate_hasClass (d : Dom) (a q : DomPath) (c : String) :
    (textareaUpdate d a).hasClass q c = d.hasClass q c := by
  unfold Dom.hasClass
  rw [textareaUpdate_node?]
  by_cases h : q = a
  · rw [if_pos h, h]
    rcases d.node? a with _ | e <;> rfl
  · rw [if_neg h]

theorem foldl_textareaUpdate_isChecked (l : List DomPath) (d : Dom) (q : DomPath) :
    (l.foldl textareaUpdate d).isChecked q = d.isChecked q := by
  induction l generalizing d with
  | nil => rfl
  | cons a l ih => rw [List.foldl_cons, ih, textareaUpdate_isChecked]

theorem foldl_textareaUpdate_hasClass (l : List DomPath) (d : Dom) (q : DomPath) (c : String) :
    (l.foldl textareaUpdate d).hasClass q c = d.hasClass q c := by
  induction l generalizing d with
  | nil => rfl
  | cons a l ih => rw [List.foldl_cons, ih, textareaUpdate_hasClass]

/-! ### Stability of the jQuery selections under the handlers -/

theorem mem_addClassFn_ne {c0 c : String} (hc : c ≠ c0) (e : Elem) :
    c ∈ (addClassFn c0 e).classes ↔ c ∈ e.classes := by
  rw [mem_addClassFn]
  constructor
  · rintro (h | rfl)
    · exact h
    · exact absurd rfl hc
  · exact fun h => Or.inl h

theorem mem_removeClassFn_ne {c0 c : String} (hc : c ≠ c0) (e : Elem) :
    c ∈ (removeClassFn c0 e).classes ↔ c ∈ e.classes := by
  rw [mem_removeClassFn]
  constructor
  · exact fun h => h.1
  · exact fun h => ⟨h, hc⟩

theorem pathsWithClass_UpdateRow (d : Dom) (p : DomPath) {c : String} (hc : c ≠ "ignore") :
    pathsWithClass (UpdateRow d p) c = pathsWithClass d c := by
  rw [UpdateRow_eq]
  rcases d.closest p "tr" with _ | r
  · rfl
  · cases d.isChecked p <;> simp only [if_true, if_false, Bool.false_eq_true]
    · exact pathsWithClass_updAt d r _ (addClassFn_path "ignore") (mem_addClassFn_ne hc)
    · exact pathsWithClass_updAt d r _ (removeClassFn_path "ignore") (mem_removeClassFn_ne hc)

theorem pathsWithClass_toggleSection (d : Dom) (p : DomPath) {c : String} (hc : c ≠ "ignore") :
    pathsWithClass (toggleSection d p) c = pathsWithClass d c := by
  rw [toggleSection_eq]
  rcases d.closest p "table" with _ | t
  · rfl
  · cases d.isChecked p <;> simp only [if_true, if_false, Bool.false_eq_true]
    · exact pathsWithClass_updAt d t _ (addClassFn_path "ignore") (mem_addClassFn_ne hc)
    · exact pathsWithClass_updAt d t _ (removeClassFn_path "ignore") (mem_removeClassFn_ne hc)

theorem foldl_UpdateRow_pathsWithClass (l : List DomPath) (d : Dom) {c : String}
    (hc : c ≠ "ignore") :
    pathsWithClass (l.foldl UpdateRow d) c = pathsWithClass d c := by
  induction l generalizing d with
  | nil => rfl
  | cons a l ih => rw [List.foldl_cons, ih, pathsWithClass_UpdateRow _ _ hc]

theorem textareaPaths_UpdateRow (d : Dom) (p : DomPath) :
    textareaPaths (UpdateRow d p) = textareaPaths d := by
  rw [UpdateRow_eq]
  rcases d.closest p "tr" with _ | r
  · rfl
  · cases d.isChecked p <;> simp only [if_true, if_false, Bool.false_eq_true]
    · exact pathsWithTag_updAt d r _ (addClassFn_path "ignore") (addClassFn_tag "ignore") _
    · exact pathsWithTag_updAt d r _ (removeClassFn_path "ignore") (removeClassFn_tag "ignore") _

theorem textareaPaths_toggleSection (d : Dom) (p : DomPath) :
    textareaPaths (toggleSection d p) = textareaPaths d := by
  rw [toggleSection_eq]
  rcases d.closest p "table" with _ | t
  · rfl
  · cases d.isChecked p <;> simp only [if_true, if_false, Bool.false_eq_true]
    · exact pathsWithTag_updAt d t _ (addClassFn_path "ignore") (addClassFn_tag "ignore") _
    · exact pathsWithTag_updAt d t _ (removeClassFn_path "ignore") (removeClassFn_tag "ignore") _

theorem foldl_UpdateRow_textareaPaths (l : List DomPath) (d : Dom) :
    textareaPaths (l.foldl UpdateRow d) = textareaPaths d := by
  induction l generalizing d with
  | nil => rfl
  | cons a l ih => rw [List.foldl_cons, ih, textareaPaths_UpdateRow]

theorem foldl_toggleSection_textareaPaths (l : List DomPath) (d : Dom) :
    textareaPaths (l.foldl toggleSection d) = textareaPaths d := by
  induction l generalizing d with
  | nil => rfl
  | cons a l ih => rw [List.foldl_cons, ih, textareaPaths_toggleSection]

/-! ### Lemmas about `findWithClass` -/

theorem mem_findWithClass_node? {d : Dom} {t q : DomPath} {c : String}
    (h : q ∈ d.findWithClass t c) : ∃ e, d.node? q = some e := by
  unfold Dom.findWithClass at h
  rcases List.mem_map.mp h with ⟨e, hf, rfl⟩
  exact Dom.node?_isSome_of_mem (List.mem_of_mem_filter hf)

theorem mem_findWithClass_iff {d : Dom} (hn : PathsNodup d) {t q : DomPath} {c : String}
    {e : Elem} (he : d.node? q = some e) :
    q ∈ d.findWithClass t c ↔ (t <+: q ∧ q ≠ t ∧ c ∈ e.classes) := by
  obtain ⟨hmem, hpath⟩ := Dom.node?_mem he
  constructor
  · intro h
    unfold Dom.findWithClass at h
    rcases List.mem_map.mp h with ⟨x, hf, hx⟩
    have hxe : x = e := by
      have hx2 := List.mem_of_mem_filter hf
      have hpx : x.path = e.path := by rw [hx, hpath]
      exact List.inj_on_of_nodup_map hn hx2 hmem hpx
    have hcond := List.of_mem_filter hf
    rw [hxe, hpath] at hcond
    simpa using hcond
  · intro h
    unfold Dom.findWithClass
    refine List.mem_map.mpr ⟨e, List.mem_filter.mpr ⟨hmem, ?_⟩, hpath⟩
    rw [hpath]
    simpa using h

/-! ### Idempotence helpers -/

theorem updAt_updAt_same (d : Dom) (r : DomPath) (f : Elem → Elem)
    (hp : ∀ e, (f e).path = e.path) (hff : ∀ e, f (f e) = f e) :
    (d.updAt r f).updAt r f = d.updAt r f := by
  unfold Dom.updAt
  congr 1
  show (d.elems.map _).map _ = _
  rw [List.map_map]
  refine List.map_congr_left ?_
  intro e _
  by_cases h : e.path = r
  · simp [Function.comp, h, hp e, hff e]
  · simp [Function.comp, h]

theorem addClassFn_idem (c : String) (e : Elem) :
    addClassFn c (addClassFn c e) = addClassFn c e := by
  by_cases h : c ∈ e.classes
  · unfold addClassFn
    rw [if_pos h, if_pos h]
  · have h2 : c ∈ (addClassFn c e).classes := by
      rw [mem_addClassFn]
      exact Or.inr rfl
    conv_lhs => rw [addClassFn]
    rw [if_pos h2]

theorem removeClassFn_idem (c : String) (e : Elem) :
    removeClassFn c (removeClassFn c e) = removeClassFn c e := by
  unfold removeClassFn
  simp [List.filter_filter]

/-! ### The handlers do not touch elements that are not rows or tables -/

theorem UpdateRow_node?_not_tr {d : Dom} {a q : DomPath}
    (hq : d.matchesTag q "tr" = false) : (UpdateRow d a).node? q = d.node? q := by
  apply UpdateRow_node?_ne
  intro h
  exact absurd (Dom.closest_matchesTag h) (by simp [hq])

theorem toggleSection_node?_not_table {d : Dom} {a q : DomPath}
    (hq : d.matchesTag q "table" = false) : (toggleSection d a).node? q = d.node? q := by
  apply toggleSection_node?_ne
  intro h
  exact absurd (Dom.closest_matchesTag h) (by simp [hq])

theorem foldl_UpdateRow_node?_not_tr (l : List DomPath) (d : Dom) {q : DomPath}
    (hq : d.matchesTag q "tr" = false) :
    (l.foldl UpdateRow d).node? q = d.node? q := by
  induction l generalizing d with
  | nil => rfl
  | cons a l ih =>
    rw [List.foldl_cons]
    have hq2 : (UpdateRow d a).matchesTag q "tr" = false := by
      rw [UpdateRow_matchesTag]
      exact hq
    rw [ih _ hq2, UpdateRow_node?_not_tr hq]

theorem foldl_toggleSection_node?_not_table (l : List DomPath) (d : Dom) {q : DomPath}
    (hq : d.matchesTag q "table" = false) :
    (l.foldl toggleSection d).node? q = d.node? q := by
  induction l generalizing d with
  | nil => rfl
  | cons a l ih =>
    rw [List.foldl_cons]
    have hq2 : (toggleSection d a).matchesTag q "table" = false := by
      rw [toggleSection_matchesTag]
      exact hq
    rw [ih _ hq2, toggleSection_node?_not_table hq]

/-! ### The claims -/

/-- C7: the row-visibility sync operation is idempotent: invoking the change
handler `UpdateRow` twice on the same checkbox, with its checked state
unchanged in between, produces exactly the document produced by invoking it
once — in particular the enclosing row's class set is unchanged by the second
invocation. -/
theorem claim_C7_updateRow_idempotent (d : Dom) (p : DomPath) :
    UpdateRow (UpdateRow d p) p = UpdateRow d p := by
  conv_lhs => rw [UpdateRow_eq (UpdateRow d p) p]
  rw [UpdateRow_closest, UpdateRow_isChecked]
  rcases hr : d.closest p "tr" with _ | r
  · rw [UpdateRow_of_no_tr hr]
  · show (if d.isChecked p = true then (UpdateRow d p).removeClass r "ignore"
      else (UpdateRow d p).addClass r "ignore") = UpdateRow d p
    cases hc : d.isChecked p
    · rw [if_neg Bool.false_ne_true]
      have hup : UpdateRow d p = d.addClass r "ignore" := by
        rw [UpdateRow_eq, hr]
        simp [hc]
      rw [hup]
      exact updAt_updAt_same d r _ (addClassFn_path "ignore") (addClassFn_idem "ignore")
    · rw [if_pos rfl]
      have hup : UpdateRow d p = d.removeClass r "ignore" := by
        rw [UpdateRow_eq, hr]
        simp [hc]
      rw [hup]
      exact updAt_updAt_same d r _ (removeClassFn_path "ignore") (removeClassFn_idem "ignore")

/-- C8: the row-visibility sync never fails: when the checkbox has no
enclosing `tr`, the jQuery selection is empty, the class operations are
no-ops, and the handler leaves the whole document unchanged. -/
theorem claim_C8_updateRow_no_row_noop (d : Dom) (p : DomPath)
    (h : d.closest p "tr" = none) : UpdateRow d p = d :=
  UpdateRow_of_no_tr h

/-- C8 witness: a concrete checkbox with no enclosing row. -/
theorem claim_C8_updateRow_no_row_noop_witness :
    domNoRow.closest [0, 0] "tr" = none ∧ UpdateRow domNoRow [0, 0] = domNoRow :=
  ⟨by decide, claim_C8_updateRow_no_row_noop domNoRow [0, 0] (by decide)⟩

/-- C9: frame property of the row-visibility sync: every element keeps its
path, tag, checked state, inline height and scroll height; classes other than
`ignore` are kept everywhere; and any element other than the closest enclosing
row of the checkbox is kept entirely unchanged.  The only possible effect is
the `ignore` class on the closest row. -/
theorem claim_C9_updateRow_frame (d : Dom) (p q : DomPath) (e : Elem)
    (he : d.node? q = some e) :
    ∃ e2, (UpdateRow d p).node? q = some e2 ∧
      e2.path = e.path ∧ e2.tag = e.tag ∧ e2.checked = e.checked ∧
      e2.styleHeight = e.styleHeight ∧ e2.scrollHeight = e.scrollHeight ∧
      (∀ c, c ≠ "ignore" → (c ∈ e2.classes ↔ c ∈ e.classes)) ∧
      (d.closest p "tr" ≠ some q → e2 = e) := by
  by_cases hq : d.closest p "tr" = some q
  · rw [UpdateRow_eq, hq]
    cases d.isChecked p <;> simp only [if_true, if_false, Bool.false_eq_true]
    · refine ⟨addClassFn "ignore" e, ?_, addClassFn_path "ignore" e,
        addClassFn_tag "ignore" e, addClassFn_checked "ignore" e,
        addClassFn_styleHeight "ignore" e, addClassFn_scrollHeight "ignore" e,
        fun c hc => mem_addClassFn_ne hc e, fun hco => absurd rfl hco⟩
      rw [Dom.addClass, Dom.node?_updAt d q _ (addClassFn_path "ignore") q, if_pos rfl, he]
      rfl
    · refine ⟨removeClassFn "ignore" e, ?_, removeClassFn_path "ignore" e,
        removeClassFn_tag "ignore" e, removeClassFn_checked "ignore" e,
        removeClassFn_styleHeight "ignore" e, removeClassFn_scrollHeight "ignore" e,
        fun c hc => mem_removeClassFn_ne hc e, fun hco => absurd rfl hco⟩
      rw [Dom.removeClass, Dom.node?_updAt d q _ (removeClassFn_path "ignore") q, if_pos rfl, he]
      rfl
  · refine ⟨e, ?_, rfl, rfl, rfl, rfl, rfl, fun c _ => Iff.rfl, fun _ => rfl⟩
    rw [UpdateRow_node?_ne hq, he]

/-- C9 witness: the frame property applied to the row element of a concrete
document. -/
theorem claim_C9_updateRow_frame_witness :
    domSingleRow.node? [0, 0] = some (Elem.mk [0, 0] "tr" [] false none 0) ∧
    (∃ e2, (UpdateRow domSingleRow [0, 0, 0]).node? [0, 0] = some e2 ∧
      e2.path = (Elem.mk [0, 0] "tr" [] false none 0).path ∧
      e2.tag = (Elem.mk [0, 0] "tr" [] false none 0).tag ∧
      e2.checked = (Elem.mk [0, 0] "tr" [] false none 0).checked ∧
      e2.styleHeight = (Elem.mk [0, 0] "tr" [] false none 0).styleHeight ∧
      e2.scrollHeight = (Elem.mk [0, 0] "tr" [] false none 0).scrollHeight ∧
      (∀ c, c ≠ "ignore" →
        (c ∈ e2.classes ↔ c ∈ (Elem.mk [0, 0] "tr" [] false none 0).classes)) ∧
      (domSingleRow.closest [0, 0, 0] "tr" ≠ some [0, 0] →
        e2 = Elem.mk [0, 0] "tr" [] false none 0)) :=
  ⟨by decide,
    claim_C9_updateRow_frame domSingleRow [0, 0, 0] [0, 0]
      (Elem.mk [0, 0] "tr" [] false none 0) (by decide)⟩

/-- C1 counterexample: the claim as stated fails when one row contains two
row-visibility checkboxes in conflicting states.  In `domRowPair` the
checkbox at `[0,0,0]` is checked, yet after initialization (in either copy of
the script) its enclosing row carries the `ignore` class, because the second,
unchecked checkbox of the same row ran `UpdateRow` later. -/
theorem claim_C1_counterexample :
    [0, 0, 0] ∈ togglevisiblePaths domRowPair ∧
    domRowPair.closest [0, 0, 0] "tr" = some [0, 0] ∧
    domRowPair.isChecked [0, 0, 0] = true ∧
    (documentReadyA domRowPair).isChecked [0, 0, 0] = true ∧
    (documentReadyA domRowPair).hasClass [0, 0] "ignore" = true ∧
    (documentReadyB domRowPair).hasClass [0, 0] "ignore" = true := by
  decide

/-- C1 (amended): for every row-visibility checkbox, (1) after a change event
on it the closest enclosing row has the `ignore` class iff the checkbox is
unchecked, and (2) the same holds after the document-ready initialization of
either copy of the script, provided distinct row-visibility checkboxes have
distinct closest rows (at most one row checkbox per row). -/
theorem claim_C1_row_sync (d : Dom) (p r : DomPath) (hrow : RowsDistinct d) :
    (d.closest p "tr" = some r →
      (UpdateRow d p).hasClass r "ignore" = ! d.isChecked p) ∧
    (p ∈ togglevisiblePaths d → d.closest p "tr" = some r →
      (documentReadyA d).hasClass r "ignore" = ! d.isChecked p ∧
      (documentReadyB d).hasClass r "ignore" = ! d.isChecked p) := by
  constructor
  · exact fun hr => UpdateRow_hasIgnore hr
  · intro hp hr
    have huniq : ∀ x ∈ togglevisiblePaths d, d.closest x "tr" = some r →
        d.isChecked x = d.isChecked p := by
      intro x hx hxr
      by_cases hxp : x = p
      · rw [hxp]
      · have := hrow x hx p hp hxp (by rw [hxr, hr])
        rw [this] at hxr
        cases hxr
    have hrows : (initRows d).hasClass r "ignore" = ! d.isChecked p :=
      foldl_UpdateRow_post (togglevisiblePaths d) d p r hp hr huniq
    have htr : (initRows d).matchesTag r "tr" = true := by
      show ((togglevisiblePaths d).foldl UpdateRow d).matchesTag r "tr" = true
      rw [foldl_UpdateRow_matchesTag]
      exact Dom.closest_matchesTag hr
    constructor
    · show (initTextareas (initSections (initRows d))).hasClass r "ignore" = ! d.isChecked p
      unfold initTextareas
      rw [foldl_textareaUpdate_hasClass]
      unfold initSections
      rw [foldl_toggleSection_hasClass_tr _ _ htr]
      exact hrows
    · show (initTextareas (initRows d)).hasClass r "ignore" = ! d.isChecked p
      unfold initTextareas
      rw [foldl_textareaUpdate_hasClass]
      exact hrows

/-- C1 witness: the amended theorem applied to a one-checkbox document. -/
theorem claim_C1_row_sync_witness :
    RowsDistinct domSingleRow ∧
    ((domSingleRow.closest [0, 0, 0] "tr" = some [0, 0] →
      (UpdateRow domSingleRow [0, 0, 0]).hasClass [0, 0] "ignore" =
        ! domSingleRow.isChecked [0, 0, 0]) ∧
     ([0, 0, 0] ∈ togglevisiblePaths domSingleRow →
      domSingleRow.closest [0, 0, 0] "tr" = some [0, 0] →
      (documentReadyA domSingleRow).hasClass [0, 0] "ignore" =
        ! domSingleRow.isChecked [0, 0, 0] ∧
      (documentReadyB domSingleRow).hasClass [0, 0] "ignore" =
        ! domSingleRow.isChecked [0, 0, 0])) :=
  ⟨by decide, claim_C1_row_sync domSingleRow [0, 0, 0] [0, 0] (by decide)⟩

theorem toggleChildrenA_eq (d : Dom) (p : DomPath) :
    toggleChildrenA d p =
      match d.closest p "table" with
      | none => d
      | some t => (d.findWithClass t "togglevisible").foldl UpdateRow
          (d.setCheckedIn (d.findWithClass t "togglevisible") (d.isChecked p)) := by
  unfold toggleChildrenA
  rcases d.closest p "table" with _ | t <;> rfl

theorem toggleChildrenB_eq (d : Dom) (p : DomPath) :
    toggleChildrenB d p =
      match d.closest p "table" with
      | none => d
      | some t => d.setCheckedIn (d.findWithClass t "togglevisible") (d.isChecked p) := by
  unfold toggleChildrenB
  rcases d.closest p "table" with _ | t <;> rfl

theorem toggleChildrenA_of_table {d : Dom} {p t : DomPath}
    (ht : d.closest p "table" = some t) :
    toggleChildrenA d p = (d.findWithClass t "togglevisible").foldl UpdateRow
      (d.setCheckedIn (d.findWithClass t "togglevisible") (d.isChecked p)) := by
  rw [toggleChildrenA_eq, ht]

theorem toggleChildrenB_of_table {d : Dom} {p t : DomPath}
    (ht : d.closest p "table" = some t) :
    toggleChildrenB d p = d.setCheckedIn (d.findWithClass t "togglevisible") (d.isChecked p) := by
  rw [toggleChildrenB_eq, ht]

theorem Dom.isChecked_of_node? {d : Dom} {q : DomPath} {e : Elem}
    (he : d.node? q = some e) : d.isChecked q = e.checked := by
  unfold Dom.isChecked
  rw [he]

/-- C2: after a change event on a children-toggle checkbox, in either copy of
the script, every row-visibility checkbox inside the closest enclosing table
has its checked property equal to the toggle's own checked state.  The
`MarkersDisjoint` hypothesis records the structural assumption that the
marker classes are carried by distinct elements, so that triggering `change`
on the affected checkboxes runs exactly `UpdateRow`. -/
theorem claim_C2_togglechildren_propagates (d : Dom) (p t q : DomPath)
    (_hd : MarkersDisjoint d)
    (ht : d.closest p "table" = some t)
    (hq : q ∈ d.findWithClass t "togglevisible") :
    (toggleChildrenA d p).isChecked q = d.isChecked p ∧
    (toggleChildrenB d p).isChecked q = d.isChecked p := by
  rcases mem_findWithClass_node? hq with ⟨e, he⟩
  have hset : (d.setCheckedIn (d.findWithClass t "togglevisible") (d.isChecked p)).isChecked q
      = d.isChecked p := Dom.isChecked_setCheckedIn_mem d _ _ hq he
  constructor
  · rw [toggleChildrenA_of_table ht, foldl_UpdateRow_isChecked]
    exact hset
  · rw [toggleChildrenB_of_table ht]
    exact hset

/-- C2 witness: a concrete table with a children-toggle and two rows. -/
theorem claim_C2_togglechildren_propagates_witness :
    MarkersDisjoint domTable ∧
    domTable.closest [0, 0] "table" = some [0] ∧
    [0, 1, 0] ∈ domTable.findWithClass [0] "togglevisible" ∧
    ((toggleChildrenA domTable [0, 0]).isChecked [0, 1, 0] = domTable.isChecked [0, 0] ∧
     (toggleChildrenB domTable [0, 0]).isChecked [0, 1, 0] = domTable.isChecked [0, 0]) :=
  ⟨by decide, by decide, by decide,
    claim_C2_togglechildren_propagates domTable [0, 0] [0] [0, 1, 0]
      (by decide) (by decide) (by decide)⟩

/-- C3: in the cascading variant (first copy of the script), a change event on
a children-toggle leaves every affected row-visibility checkbox with the
toggle's checked state and, because the change event is re-triggered and runs
`UpdateRow`, the enclosing row of every affected checkbox has the `ignore`
class iff that (now-updated) state is unchecked. -/
theorem claim_C3_togglechildrenA_cascades (d : Dom) (p t q r : DomPath)
    (_hd : MarkersDisjoint d)
    (ht : d.closest p "table" = some t)
    (hq : q ∈ d.findWithClass t "togglevisible")
    (hr : d.closest q "tr" = some r) :
    (toggleChildrenA d p).isChecked q = d.isChecked p ∧
    (toggleChildrenA d p).hasClass r "ignore" = ! d.isChecked p := by
  rcases mem_findWithClass_node? hq with ⟨e, he⟩
  have hset : (d.setCheckedIn (d.findWithClass t "togglevisible") (d.isChecked p)).isChecked q
      = d.isChecked p := Dom.isChecked_setCheckedIn_mem d _ _ hq he
  have hcall : ∀ x ∈ d.findWithClass t "togglevisible",
      (d.setCheckedIn (d.findWithClass t "togglevisible") (d.isChecked p)).isChecked x
        = d.isChecked p := by
    intro x hx
    rcases mem_findWithClass_node? hx with ⟨ex, hex⟩
    exact Dom.isChecked_setCheckedIn_mem d _ _ hx hex
  constructor
  · rw [toggleChildrenA_of_table ht, foldl_UpdateRow_isChecked]
    exact hset
  · rw [toggleChildrenA_of_table ht]
    have hr1 : (d.setCheckedIn (d.findWithClass t "togglevisible") (d.isChecked p)).closest
        q "tr" = some r := by
      rw [Dom.closest_setCheckedIn]
      exact hr
    have hpost := foldl_UpdateRow_post (d.findWithClass t "togglevisible")
      (d.setCheckedIn (d.findWithClass t "togglevisible") (d.isChecked p)) q r hq hr1
      (fun x hx _ => by rw [hcall x hx, hset])
    rw [hpost, hset]

/-- C3 witness: the spec's concrete scenario — an unchecked children-toggle
over two checked rows; the first row's checkbox ends unchecked and its row
carries `ignore`. -/
theorem claim_C3_togglechildrenA_cascades_witness :
    MarkersDisjoint domTable ∧
    domTable.closest [0, 0] "table" = some [0] ∧
    [0, 1, 0] ∈ domTable.findWithClass [0] "togglevisible" ∧
    domTable.closest [0, 1, 0] "tr" = some [0, 1] ∧
    ((toggleChildrenA domTable [0, 0]).isChecked [0, 1, 0] = domTable.isChecked [0, 0] ∧
     (toggleChildrenA domTable [0, 0]).hasClass [0, 1] "ignore" =
       ! domTable.isChecked [0, 0]) :=
  ⟨by decide, by decide, by decide, by decide,
    claim_C3_togglechildrenA_cascades domTable [0, 0] [0] [0, 1, 0] [0, 1]
      (by decide) (by decide) (by decide) (by decide)⟩

/-- C10: in both copies of the script, the checkboxes affected by a
children-toggle change event are exactly the elements carrying the
`togglevisible` class that are strict descendants — at any depth, nested
tables included — of the toggle's nearest ancestor table: those end with the
toggle's checked state, every other element keeps its checked property. -/
theorem claim_C10_togglechildren_scope (d : Dom) (p t q : DomPath) (e : Elem)
    (_hd : MarkersDisjoint d) (hn : PathsNodup d)
    (ht : d.closest p "table" = some t)
    (he : d.node? q = some e) :
    (toggleChildrenB d p).isChecked q =
      (if t <+: q ∧ q ≠ t ∧ "togglevisible" ∈ e.classes then d.isChecked p else e.checked) ∧
    (toggleChildrenA d p).isChecked q =
      (if t <+: q ∧ q ≠ t ∧ "togglevisible" ∈ e.classes then d.isChecked p else e.checked) := by
  have hiff := @mem_findWithClass_iff d hn t q "togglevisible" e he
  by_cases hcond : t <+: q ∧ q ≠ t ∧ "togglevisible" ∈ e.classes
  · have hqmem : q ∈ d.findWithClass t "togglevisible" := hiff.mpr hcond
    have hset : (d.setCheckedIn (d.findWithClass t "togglevisible") (d.isChecked p)).isChecked q
        = d.isChecked p := Dom.isChecked_setCheckedIn_mem d _ _ hqmem he
    rw [if_pos hcond]
    constructor
    · rw [toggleChildrenB_of_table ht]
      exact hset
    · rw [toggleChildrenA_of_table ht, foldl_UpdateRow_isChecked]
      exact hset
  · have hqnot : q ∉ d.findWithClass t "togglevisible" := fun hmem => hcond (hiff.mp hmem)
    have hset : (d.setCheckedIn (d.findWithClass t "togglevisible") (d.isChecked p)).isChecked q
        = e.checked := by
      rw [Dom.isChecked_setCheckedIn_not_mem d _ _ hqnot]
      exact Dom.isChecked_of_node? he
    rw [if_neg hcond]
    constructor
    · rw [toggleChildrenB_of_table ht]
      exact hset
    · rw [toggleChildrenA_of_table ht, foldl_UpdateRow_isChecked]
      exact hset

/-- C10 witness: the scope characterization applied to a checkbox inside a
nested inner table: it is affected by the outer toggle. -/
theorem claim_C10_togglechildren_scope_witness :
    MarkersDisjoint domNested ∧
    PathsNodup domNested ∧
    domNested.closest [0, 0] "table" = some [0] ∧
    domNested.node? [0, 1, 1, 0, 0] =
      some (Elem.mk [0, 1, 1, 0, 0] "input" ["togglevisible"] false none 0) ∧
    ((toggleChildrenB domNested [0, 0]).isChecked [0, 1, 1, 0, 0] =
      (if [0] <+: [0, 1, 1, 0, 0] ∧ [0, 1, 1, 0, 0] ≠ [0] ∧
          "togglevisible" ∈ (Elem.mk [0, 1, 1, 0, 0] "input" ["togglevisible"] false none 0).classes
        then domNested.isChecked [0, 0]
        else (Elem.mk [0, 1, 1, 0, 0] "input" ["togglevisible"] false none 0).checked) ∧
     (toggleChildrenA domNested [0, 0]).isChecked [0, 1, 1, 0, 0] =
      (if [0] <+: [0, 1, 1, 0, 0] ∧ [0, 1, 1, 0, 0] ≠ [0] ∧
          "togglevisible" ∈ (Elem.mk [0, 1, 1, 0, 0] "input" ["togglevisible"] false none 0).classes
        then domNested.isChecked [0, 0]
        else (Elem.mk [0, 1, 1, 0, 0] "input" ["togglevisible"] false none 0).checked)) :=
  ⟨by decide, by decide, by decide, by decide,
    claim_C10_togglechildren_scope domNested [0, 0] [0] [0, 1, 1, 0, 0]
      (Elem.mk [0, 1, 1, 0, 0] "input" ["togglevisible"] false none 0)
      (by decide) (by decide) (by decide) (by decide)⟩

/-- C4: the two near-duplicate copies of the script are not behaviorally
equivalent on the children-toggle operation.  On `domTable` (toggle unchecked,
both row checkboxes checked, rows without `ignore`) the two handlers produce
different documents; after the second copy's handler the row checkbox at
`[0,1,0]` is unchecked while its row still lacks the `ignore` class — the
class is stale with respect to the updated checkbox state — whereas the
cascading first copy marks the row. -/
theorem claim_C4_variants_differ :
    toggleChildrenA domTable [0, 0] ≠ toggleChildrenB domTable [0, 0] ∧
    domTable.closest [0, 1, 0] "tr" = some [0, 1] ∧
    (toggleChildrenB domTable [0, 0]).isChecked [0, 1, 0] = false ∧
    (toggleChildrenB domTable [0, 0]).hasClass [0, 1] "ignore" = false ∧
    (toggleChildrenA domTable [0, 0]).isChecked [0, 1, 0] = false ∧
    (toggleChildrenA domTable [0, 0]).hasClass [0, 1] "ignore" = true := by
  decide

/-- C5 counterexample: the claim as stated fails when one table contains two
section toggles in conflicting states.  In `domSectionPair` the toggle at
`[0,0]` is checked, yet after initialization its enclosing table carries the
`ignore` class, because the second, unchecked toggle ran later. -/
theorem claim_C5_counterexample :
    [0, 0] ∈ togglesectionPaths domSectionPair ∧
    domSectionPair.closest [0, 0] "table" = some [0] ∧
    domSectionPair.isChecked [0, 0] = true ∧
    (documentReadyA domSectionPair).isChecked [0, 0] = true ∧
    (documentReadyA domSectionPair).hasClass [0] "ignore" = true := by
  decide

/-- C5 (amended): for every section-toggle checkbox of the variant with
section toggles, (1) after a change event on it the closest enclosing table
has the `ignore` class iff the toggle is unchecked, and (2) the same holds
after the document-ready initialization (which triggers change on all section
toggles), provided distinct section toggles have distinct closest tables. -/
theorem claim_C5_section_sync (d : Dom) (p t : DomPath)
    (hsec : SectionTablesDistinct d) :
    (d.closest p "table" = some t →
      (toggleSection d p).hasClass t "ignore" = ! d.isChecked p) ∧
    (p ∈ togglesectionPaths d → d.closest p "table" = some t →
      (documentReadyA d).hasClass t "ignore" = ! d.isChecked p) := by
  constructor
  · exact fun ht => toggleSection_hasIgnore ht
  · intro hp ht
    have hpaths : togglesectionPaths (initRows d) = togglesectionPaths d := by
      show pathsWithClass ((togglevisiblePaths d).foldl UpdateRow d) "togglesection" =
        pathsWithClass d "togglesection"
      exact foldl_UpdateRow_pathsWithClass _ d (by decide)
    have hclo : ∀ x s, (initRows d).closest x s = d.closest x s := fun x s =>
      foldl_UpdateRow_closest _ d x s
    have hchk : ∀ x, (initRows d).isChecked x = d.isChecked x := fun x =>
      foldl_UpdateRow_isChecked _ d x
    have hp2 : p ∈ togglesectionPaths (initRows d) := by
      rw [hpaths]
      exact hp
    have ht2 : (initRows d).closest p "table" = some t := by
      rw [hclo]
      exact ht
    have huniq : ∀ x ∈ togglesectionPaths (initRows d),
        (initRows d).closest x "table" = some t →
        (initRows d).isChecked x = (initRows d).isChecked p := by
      intro x hx hxt
      rw [hpaths] at hx
      rw [hclo] at hxt
      rw [hchk, hchk]
      by_cases hxp : x = p
      · rw [hxp]
      · have hnone := hsec x hx p hp hxp (by rw [hxt, ht])
        rw [hnone] at hxt
        cases hxt
    have hsecs := foldl_toggleSection_post (togglesectionPaths (initRows d)) (initRows d)
      p t hp2 ht2 huniq
    show (initTextareas (initSections (initRows d))).hasClass t "ignore" = ! d.isChecked p
    unfold initTextareas
    rw [foldl_textareaUpdate_hasClass]
    unfold initSections
    rw [hsecs, hchk]

/-- C5 witness: a single unchecked section toggle marks its table. -/
theorem claim_C5_section_sync_witness :
    SectionTablesDistinct domSection ∧
    ((domSection.closest [0, 0] "table" = some [0] →
      (toggleSection domSection [0, 0]).hasClass [0] "ignore" =
        ! domSection.isChecked [0, 0]) ∧
     ([0, 0] ∈ togglesectionPaths domSection →
      domSection.closest [0, 0] "table" = some [0] →
      (documentReadyA domSection).hasClass [0] "ignore" =
        ! domSection.isChecked [0, 0])) :=
  ⟨by decide, claim_C5_section_sync domSection [0, 0] [0] (by decide)⟩

/-- C6: the textarea resize closure first resets the inline height to the
minimal value `1em`, measures the element's scroll height (the rendering
engine's report of the full content height, an oracle field of the model),
and sets the inline height to exactly that value in pixels; it touches no
other element.  The same holds for the single run at initialization in either
copy of the script (the closure is also bound to the change, key-up and
key-down events of the element and to window resize, all running this same
code). -/
theorem claim_C6_textarea_autoresize (d : Dom) (p : DomPath) (e : Elem)
    (he : d.node? p = some e) (htag : e.tag = "textarea") :
    (textareaUpdate d p).node? p =
      some { e with styleHeight := some (toString e.scrollHeight ++ "px") } ∧
    (∀ q, q ≠ p → (textareaUpdate d p).node? q = d.node? q) ∧
    (p ∈ textareaPaths d →
      (documentReadyA d).node? p =
        some { e with styleHeight := some (toString e.scrollHeight ++ "px") } ∧
      (documentReadyB d).node? p =
        some { e with styleHeight := some (toString e.scrollHeight ++ "px") }) := by
  refine ⟨textareaUpdate_post he, fun q hq => textareaUpdate_node?_ne hq, ?_⟩
  intro hp
  have hmtr : d.matchesTag p "tr" = false := by
    unfold Dom.matchesTag
    rw [he]
    simp [htag]
  have hmtab : d.matchesTag p "table" = false := by
    unfold Dom.matchesTag
    rw [he]
    simp [htag]
  have heR : (initRows d).node? p = some e := by
    show ((togglevisiblePaths d).foldl UpdateRow d).node? p = some e
    rw [foldl_UpdateRow_node?_not_tr _ d hmtr]
    exact he
  have hmtabR : (initRows d).matchesTag p "table" = false := by
    show ((togglevisiblePaths d).foldl UpdateRow d).matchesTag p "table" = false
    rw [foldl_UpdateRow_matchesTag]
    exact hmtab
  have heS : (initSections (initRows d)).node? p = some e := by
    show ((togglesectionPaths (initRows d)).foldl toggleSection (initRows d)).node? p = some e
    rw [foldl_toggleSection_node?_not_table _ _ hmtabR]
    exact heR
  have hpR : p ∈ textareaPaths (initRows d) := by
    show p ∈ textareaPaths ((togglevisiblePaths d).foldl UpdateRow d)
    rw [foldl_UpdateRow_textareaPaths]
    exact hp
  have hpS : p ∈ textareaPaths (initSections (initRows d)) := by
    show p ∈ textareaPaths ((togglesectionPaths (initRows d)).foldl toggleSection (initRows d))
    rw [foldl_toggleSection_textareaPaths]
    exact hpR
  constructor
  · show (initTextareas (initSections (initRows d))).node? p = _
    unfold initTextareas
    exact foldl_textareaUpdate_post _ _ hpS heS
  · show (initTextareas (initRows d)).node? p = _
    unfold initTextareas
    exact foldl_textareaUpdate_post _ _ hpR heR

/-- C6 witness: a concrete textarea whose scroll height is 57 pixels. -/
theorem claim_C6_textarea_autoresize_witness :
    domText.node? [0] = some (Elem.mk [0] "textarea" [] false (some "30px") 57) ∧
    (Elem.mk [0] "textarea" [] false (some "30px") 57).tag = "textarea" ∧
    ((textareaUpdate domText [0]).node? [0] =
      some { Elem.mk [0] "textarea" [] false (some "30px") 57 with
        styleHeight := some (toString
          (Elem.mk [0] "textarea" [] false (some "30px") 57).scrollHeight ++ "px") } ∧
     (∀ q, q ≠ [0] → (textareaUpdate domText [0]).node? q = domText.node? q) ∧
     ([0] ∈ textareaPaths domText →
      (documentReadyA domText).node? [0] =
        some { Elem.mk [0] "textarea" [] false (some "30px") 57 with
          styleHeight := some (toString
            (Elem.mk [0] "textarea" [] false (some "30px") 57).scrollHeight ++ "px") } ∧
      (documentReadyB domText).node? [0] =
        some { Elem.mk [0] "textarea" [] false (some "30px") 57 with
          styleHeight := some (toString
            (Elem.mk [0] "textarea" [] false (some "30px") 57).scrollHeight ++ "px") })) :=
  ⟨by decide, by decide,
    claim_C6_textarea_autoresize domText [0]
      (Elem.mk [0] "textarea" [] false (some "30px") 57) (by decide) (by decide)⟩
